import Mathlib

/-!
Verification of the api-router endpoint-selection engine.

This file shallowly embeds the Go sources of the repository
(`router.go`, `latency_modifier.go`) and settles the frozen claims
about endpoint validation, the deployment-region override, the
concurrent latency probe, and the stop lifecycle.

Conventions of the embedding:
* Go strings are Lean `String`; Go `len(s)` is the UTF-8 byte length,
  `String.utf8ByteSize`.
* Go `time.Duration` is `Nat` (nanoseconds).
* The HTTP transport is an external collaborator; it is modelled as a
  function from an endpoint URL to the outcome of the single HEAD
  request made against it during one probe round.
* Goroutine nondeterminism (the order in which probe results arrive on
  the results channel) is an explicit parameter: any permutation of the
  recorded results.
-/

deriving instance DecidableEq for Except

namespace ApiRouter

/-- EndPoints from `router.go`: the candidate URLs of one API.
Field order matters: `validate` iterates the fields by reflection in
struct declaration order. -/
structure EndPoints where
  AsiaPacific : String := ""
  Europe : String := ""
  Universal : String := ""
  USEast : String := ""
  USWest : String := ""
  Fallback : String := ""
  ClosestURL : String := ""
deriving DecidableEq

/-- The fields of an `EndPoints` value in Go struct declaration order,
as iterated by `reflect.ValueOf(e)` inside `validate`. -/
def fieldsOf (e : EndPoints) : List String :=
  [e.AsiaPacific, e.Europe, e.Universal, e.USEast, e.USWest, e.Fallback, e.ClosestURL]

/-- Character class for the first byte of a URL scheme, from Go
`net/url.getScheme`: ASCII letters. -/
def isSchemeAlpha (c : Char) : Bool :=
  ('a' ≤ c && c ≤ 'z') || ('A' ≤ c && c ≤ 'Z')

/-- Character class for later bytes of a URL scheme, from Go
`net/url.getScheme`: digits and `+`, `-`, `.`. -/
def isSchemeDigitSym (c : Char) : Bool :=
  ('0' ≤ c && c ≤ '9') || c == '+' || c == '-' || c == '.'

/-- Modelled from the Go standard library `net/url.getScheme` (the
first stage of `url.Parse`, and the stage that determines the scheme
`validate` inspects): scans the raw URL for a scheme terminated by
`:`.  Returns `none` exactly on the "missing protocol scheme" parse
error (a `:` before any scheme byte), and otherwise `some scheme`,
where `scheme = ""` when the string has no scheme at all.  Go iterates
over bytes; iterating over characters is equivalent because every byte
of a multi-byte UTF-8 character falls in the default (no-scheme)
class, as the character itself does here.
CAUTION: the later error paths of `url.Parse` (invalid percent
escapes, invalid host characters, invalid ports, control bytes) are
NOT modelled and appear here as successes.  Accordingly, no theorem
below concludes from a `some` result that the real `url.Parse`
succeeds: the one theorem about parse outcomes of populated fields
(claim C9) has a disjunctive conclusion that is the same whether a
field fails at this scheme stage, fails at an unmodelled later stage,
or parses successfully. -/
def getSchemeAux (acc : List Char) (first : Bool) : List Char → Option String
  | [] => some ""
  | c :: rest =>
    if isSchemeAlpha c then getSchemeAux (acc ++ [c]) false rest
    else if isSchemeDigitSym c then
      if first then some "" else getSchemeAux (acc ++ [c]) false rest
    else if c = ':' then
      if first then none else some (String.mk acc)
    else some ""

/-- Scheme of a raw URL per Go `net/url.Parse`; `none` is a parse error. -/
def getScheme (s : String) : Option String :=
  getSchemeAux [] true s.data

/-- The construction-time errors of `validate` (`api-router.go` vars
`ErrAtLeastOne`, `ErrMissingProtocol`, `ErrFallbackUnset`, and the
wrapped `url.Parse` error). -/
inductive ValidateError where
  | malformedURL
  | missingProtocol
  | atLeastOne
  | fallbackUnset
deriving DecidableEq

/-- The field loop of `EndPoints.validate` (`router.go` lines 25-39):
for each field whose byte length is `> 1`, parse it — a parse error
aborts with the malformed-URL error, an empty scheme aborts with
`ErrMissingProtocol` — and count it; fields of byte length `≤ 1` are
skipped entirely.  Returns the count `atLeastOne` on success. -/
def countPopulated : List String → Except ValidateError Nat
  | [] => .ok 0
  | v :: rest =>
    if 1 < v.utf8ByteSize then
      match getScheme v with
      | none => .error .malformedURL
      | some scheme =>
        if scheme.utf8ByteSize = 0 then .error .missingProtocol
        else
          match countPopulated rest with
          | .error err => .error err
          | .ok n => .ok (n + 1)
    else countPopulated rest

/-- The fallback value seen by the final check of `validate`
(`router.go` lines 45-49): when exactly one field was counted and
`Universal` is non-empty, the receiver's `Fallback` is locally set to
`Universal`; the check then reads that local copy. -/
def derivedFallback (e : EndPoints) (atLeastOne : Nat) : String :=
  if atLeastOne = 1 ∧ 0 < e.Universal.utf8ByteSize then e.Universal else e.Fallback

/-- EndPoints.validate from `router.go` lines 24-55, returning `none`
on success and the error otherwise. -/
def validate (e : EndPoints) : Option ValidateError :=
  match countPopulated (fieldsOf e) with
  | .error err => some err
  | .ok atLeastOne =>
    if atLeastOne = 0 then some .atLeastOne
    else if (derivedFallback e atLeastOne).utf8ByteSize = 0 then some .fallbackUnset
    else none

/-- The caller's view of `endpoints.validate()`: `validate` has a VALUE
receiver (`func (e EndPoints) validate() error`), so the assignment
`e.Fallback = e.Universal` inside it mutates only the receiver copy.
On success the caller's `EndPoints` value is returned unchanged. -/
def validateCaller (e : EndPoints) : Except ValidateError EndPoints :=
  match validate e with
  | some err => .error err
  | none => .ok e

/-- Router from `router.go` lines 60-66 (the `routerModifier` field is
modelled separately by the latency-modifier state). -/
structure Router where
  AWSRegion : String
  endpoints : EndPoints
deriving DecidableEq

/-- The region switch of `NewEnvironmentRouter` (`router.go` lines
77-87), applied to the already lower-cased `AWS_REGION` value.  The
Asia-Pacific case literals are transcribed exactly as written in the
source, including the leading two spaces of the second literal. -/
def regionOverride (region : String) (e : EndPoints) : EndPoints :=
  if region = "us-east-1" ∨ region = "us-east-2" then
    { e with ClosestURL := e.USEast }
  else if region = "us-west-1" ∨ region = "us-west-2" then
    { e with ClosestURL := e.USWest }
  else if region = "ap-south-1" ∨ region = "  ap-southeast-1" ∨ region = "ap-southeast-2" then
    { e with ClosestURL := e.AsiaPacific }
  else if region = "eu-central-1" then
    { e with ClosestURL := e.Europe }
  else e

/-- Modelled from Go `strings.ToLower`: character-wise Unicode
lower-casing (the same mapping as Lean's `String.toLower`, stated
structurally over the character list so that it reduces). -/
def goToLower (s : String) : String := ⟨s.data.map Char.toLower⟩

/-- NewEnvironmentRouter from `router.go` lines 70-95.  The process
environment is a parameter: `awsRegionEnv` is the raw value of
`AWS_REGION`, lower-cased by `strings.ToLower` before the switch. -/
def NewEnvironmentRouter (awsRegionEnv : String) (e : EndPoints) : Except ValidateError Router :=
  match validate e with
  | some err => .error err
  | none =>
    let region := goToLower awsRegionEnv
    let e' := if 0 < region.utf8ByteSize then regionOverride region e else e
    .ok { AWSRegion := region, endpoints := e' }

/-- Router.GetRouterURL from `router.go` lines 98-111: `ClosestURL`,
else `Universal`, else `Fallback`, else the empty string. -/
def GetRouterURL (r : Router) : String :=
  if r.endpoints.ClosestURL.utf8ByteSize ≠ 0 then r.endpoints.ClosestURL
  else if r.endpoints.Universal.utf8ByteSize ≠ 0 then r.endpoints.Universal
  else if r.endpoints.Fallback.utf8ByteSize ≠ 0 then r.endpoints.Fallback
  else ""

/-- Outcome of the single HEAD request a probe goroutine issues for one
endpoint (`latency_modifier.go` lines 159-181), as provided by the
external HTTP collaborator: `buildFail` is an error from
`http.NewRequestWithContext`, `netError` an error from `Client.Do`,
and `response status elapsed` a reply with its measured wall-clock
duration in nanoseconds. -/
inductive HTTPOutcome where
  | buildFail
  | netError
  | response (status : Nat) (elapsed : Nat)

/-- latencyResult from `latency_modifier.go` lines 109-112. -/
structure latencyResult where
  URL : String
  Duration : Nat
deriving DecidableEq

/-- Go `time.Hour` in nanoseconds, the sentinel duration recorded for
failed probes and the initial value of the minimum fold. -/
def timeHour : Nat := 3600000000000

/-- LatencyCheckModifier.headRequest from `latency_modifier.go` lines
151-183, with the HTTP collaborator `env` as a parameter.  `none`
means the goroutine returned without sending on the results channel
(request construction failed); `some r` is the result it sent.  An
empty endpoint, a `Client.Do` error, and a status different from
`http.StatusOK` (exactly 200) all record the sentinel `timeHour`;
a 200 response records the measured elapsed time. -/
def headRequest (env : String → HTTPOutcome) (endpoint : String) : Option latencyResult :=
  if endpoint.utf8ByteSize = 0 then some ⟨endpoint, timeHour⟩
  else
    match env endpoint with
    | .buildFail => none
    | .netError => some ⟨endpoint, timeHour⟩
    | .response status elapsed =>
      if status ≠ 200 then some ⟨endpoint, timeHour⟩
      else some ⟨endpoint, elapsed⟩

/-- The candidate slice built by `findLowLatencyEndpoint`
(`latency_modifier.go` lines 118-124): Universal, USEast, USWest,
Europe, AsiaPacific — `Fallback` and `ClosestURL` are not probed. -/
def candidates (e : EndPoints) : List String :=
  [e.Universal, e.USEast, e.USWest, e.Europe, e.AsiaPacific]

/-- The multiset of results sent on the `results` channel during one
probe round, listed in goroutine launch order.  The actual channel
receives them in goroutine completion order, an arbitrary permutation
of this list. -/
def roundResults (env : String → HTTPOutcome) (e : EndPoints) : List latencyResult :=
  (candidates e).filterMap (headRequest env)

/-- The minimum fold of `findLowLatencyEndpoint` (`latency_modifier.go`
lines 137-142): `for res := range results { if res.Duration <
fastest.Duration { fastest = res } }`, starting from `fastest`. -/
def selectGo (fastest : latencyResult) : List latencyResult → latencyResult
  | [] => fastest
  | r :: rest => selectGo (if r.Duration < fastest.Duration then r else fastest) rest

/-- The winner of one probe round given the channel arrival order,
starting from the sentinel `latencyResult{URL: "", Duration: time.Hour}`. -/
def selectFastest (arrivals : List latencyResult) : latencyResult :=
  selectGo ⟨"", timeHour⟩ arrivals

/-- The `fastestURL` update at the end of `findLowLatencyEndpoint`
(`latency_modifier.go` lines 144-148): if the winning URL is empty the
stored value `old` is kept, otherwise it is overwritten. -/
def updateFastest (arrivals : List latencyResult) (old : String) : String :=
  if (selectFastest arrivals).URL.utf8ByteSize = 0 then old
  else (selectFastest arrivals).URL

/-- The seed of `fastestURL` in `NewLatencyCheckerModifier`
(`latency_modifier.go` lines 56-62): `ClosestURL`, else `Universal`,
else `Fallback`, else left empty. -/
def seedFastestURL (e : EndPoints) : String :=
  if e.ClosestURL.utf8ByteSize ≠ 0 then e.ClosestURL
  else if e.Universal.utf8ByteSize ≠ 0 then e.Universal
  else if e.Fallback.utf8ByteSize ≠ 0 then e.Fallback
  else ""

/-- The value `GetEndpoint` returns right after
`NewLatencyCheckerModifier` returns: the seed, updated by the one probe
round that `periodicallyPingEndpoints` runs synchronously during
construction (`latency_modifier.go` lines 68 and 198), with the round's
channel arrival order as a parameter. -/
def fastestURLAfterNew (e : EndPoints) (arrivals : List latencyResult) : String :=
  updateFastest arrivals (seedFastestURL e)

/-- State of the buffered (capacity 1) `stopTicker` channel
(`latency_modifier.go` line 53), modelled from Go channel semantics. -/
inductive ChanState where
  | empty
  | full
  | closed
deriving DecidableEq

/-- StopPingingEndpoints from `latency_modifier.go` lines 84-89:
`select { case l.stopTicker <- struct{}{}: default: }`.  On an empty
channel the send succeeds; on a full channel the default branch makes
the call a no-op; on a CLOSED channel the send case is chosen by
`select` and, per Go semantics, a send on a closed channel is a
runtime panic — modelled as `none`. -/
def StopPingingEndpoints : ChanState → Option ChanState
  | .empty => some .full
  | .full => some .full
  | .closed => none

/-- The stop branch of the ticker goroutine in
`periodicallyPingEndpoints` (`latency_modifier.go` lines 203-205):
when a stop signal is buffered, the goroutine receives it, calls
`ticker.Stop()`, then `close(l.stopTicker)` and returns, leaving the
channel closed.  With no signal buffered the state is unchanged. -/
def tickerLoopReceiveStop : ChanState → ChanState
  | .full => .closed
  | s => s

/-! Concrete inputs used by witnesses, counterexamples and bug
evaluations. -/

/-- An EndPoints value whose only populated field is `Universal`. -/
def exUniversalOnly : EndPoints := { Universal := "https://universal.foobar.com" }

/-- An EndPoints value with Universal, USEast and Fallback populated. -/
def eTie : EndPoints :=
  { Universal := "http://u", USEast := "http://e", Fallback := "http://f" }

/-- An HTTP collaborator under which `http://u` and `http://e` both
answer 200 after exactly 5ns and everything else fails. -/
def envTie : String → HTTPOutcome := fun s =>
  if s = "http://u" ∨ s = "http://e" then .response 200 5 else .netError

/-- Channel arrival order in which the USEast result precedes the
Universal result. -/
def arrTie : List latencyResult :=
  [⟨"http://e", 5⟩, ⟨"http://u", 5⟩, ⟨"", timeHour⟩, ⟨"", timeHour⟩, ⟨"", timeHour⟩]

/-- An HTTP collaborator under which every request errors. -/
def envFail : String → HTTPOutcome := fun _ => .netError

/-- An EndPoints value with AsiaPacific and Fallback populated. -/
def eAsia : EndPoints :=
  { AsiaPacific := "https://apac.foobar.com", Fallback := "https://fallback.foobar.com" }

/-- An EndPoints value with USEast and Fallback populated. -/
def eUS : EndPoints :=
  { USEast := "https://us-east.foobar.com", Fallback := "https://fallback.foobar.com" }

/-- An EndPoints value whose Universal field lacks a scheme. -/
def eSchemeless : EndPoints :=
  { Universal := "universal.foobar.com", Fallback := "https://f.com" }

/-- An EndPoints value whose first iterated field is malformed (leading
colon) while a later field is schemeless. -/
def eNine : EndPoints := { AsiaPacific := "://a", Europe := "eu.foobar.com" }

/-! Helper lemmas. -/

/-- Go `len(s) == 0` is emptiness of the string. -/
theorem utf8_eq_zero {s : String} : s.utf8ByteSize = 0 ↔ s = "" := by
  cases s with
  | mk l =>
    cases l with
    | nil => exact ⟨fun _ => rfl, fun _ => rfl⟩
    | cons c cs =>
      simp only [String.utf8ByteSize_mk, String.utf8Len_cons]
      constructor
      · intro h
        exact absurd h (by have := Char.utf8Size_pos c; omega)
      · intro h
        exact absurd h (by simp [String.ext_iff])

/-- Go `len(s) != 0` is non-emptiness of the string. -/
theorem utf8_ne_zero {s : String} : s.utf8ByteSize ≠ 0 ↔ s ≠ "" :=
  not_congr utf8_eq_zero

/-- A field of byte length at most 1 is skipped by the validation
loop: it is neither parsed nor counted. -/
theorem countPopulated_skip {v : String} (hv : v.utf8ByteSize ≤ 1) (l : List String) :
    countPopulated (v :: l) = countPopulated l := by
  simp only [countPopulated, if_neg (Nat.not_lt.mpr hv)]

/-- If every field has byte length at most 1, the validation loop
counts nothing and reports no parse error. -/
theorem countPopulated_allSmall :
    ∀ l : List String, (∀ v ∈ l, v.utf8ByteSize ≤ 1) → countPopulated l = .ok 0
  | [], _ => rfl
  | v :: rest, h => by
    rw [countPopulated_skip (h v (List.mem_cons_self ..)) rest]
    exact countPopulated_allSmall rest fun x hx => h x (List.mem_cons_of_mem _ hx)

/-- Replacing one skipped field by another skipped field does not
change the validation loop. -/
theorem countPopulated_congr (v w : String) (hv : v.utf8ByteSize ≤ 1)
    (hw : w.utf8ByteSize ≤ 1) :
    ∀ l₁ l₂ : List String, countPopulated (l₁ ++ v :: l₂) = countPopulated (l₁ ++ w :: l₂)
  | [], l₂ => by
    simp only [List.nil_append]
    rw [countPopulated_skip hv, countPopulated_skip hw]
  | a :: t, l₂ => by
    simp only [List.cons_append, countPopulated, List.append_eq]
    rw [countPopulated_congr v w hv hw t l₂]

/-- If some populated field has an empty scheme, the validation loop
cannot complete: it aborts with the missing-protocol error (at the
first populated scheme-less field) or with the malformed-URL error (at
an earlier populated field that fails to parse).  The disjunction does
not depend on which of the two errors an individual field produces,
so it also covers parse-error paths of `url.Parse` that the `getScheme`
fragment does not model: any such path only turns one loop error into
the other. -/
theorem countPopulated_schemeless :
    ∀ l : List String, (∃ v ∈ l, 1 < v.utf8ByteSize ∧ getScheme v = some "") →
    countPopulated l = .error .missingProtocol ∨
    countPopulated l = .error .malformedURL := by
  intro l
  induction l with
  | nil => intro hex; simp at hex
  | cons a t ih =>
    intro hex
    by_cases ha : 1 < a.utf8ByteSize
    · cases hs : getScheme a with
      | none =>
        right
        simp only [countPopulated, if_pos ha, hs]
      | some sch =>
        by_cases hsch : sch.utf8ByteSize = 0
        · left
          simp only [countPopulated, if_pos ha, hs, if_pos hsch]
        · have hrest : ∃ v ∈ t, 1 < v.utf8ByteSize ∧ getScheme v = some "" := by
            rcases hex with ⟨v, hv, hpop, hscheme⟩
            rcases List.mem_cons.mp hv with rfl | hvt
            · rw [hs] at hscheme
              cases hscheme
              exact absurd rfl hsch
            · exact ⟨v, hvt, hpop, hscheme⟩
          rcases ih hrest with h | h
          · left; simp only [countPopulated, if_pos ha, hs, if_neg hsch, h]
          · right; simp only [countPopulated, if_pos ha, hs, if_neg hsch, h]
    · rw [countPopulated_skip (Nat.not_lt.mp ha) t]
      apply ih
      rcases hex with ⟨v, hv, hpop, hscheme⟩
      rcases List.mem_cons.mp hv with rfl | hvt
      · exact absurd hpop ha
      · exact ⟨v, hvt, hpop, hscheme⟩

/-- A successful validation forces a non-empty Universal or a non-empty
Fallback field on the caller's value. -/
theorem validate_none_fallback {e : EndPoints} (h : validate e = none) :
    e.Universal ≠ "" ∨ e.Fallback ≠ "" := by
  unfold validate at h
  split at h
  · exact Option.noConfusion h
  · rename_i n hEq
    split at h
    · exact Option.noConfusion h
    · split at h
      · exact Option.noConfusion h
      · rename_i hf
        have hne : derivedFallback e n ≠ "" := utf8_ne_zero.mp hf
        unfold derivedFallback at hne
        by_cases hcond : n = 1 ∧ 0 < e.Universal.utf8ByteSize
        · rw [if_pos hcond] at hne; exact Or.inl hne
        · rw [if_neg hcond] at hne; exact Or.inr hne

/-- After a successful validation the seed of `fastestURL` is non-empty
and drawn from the fields of the set. -/
theorem seed_ok {e : EndPoints} (h : validate e = none) :
    seedFastestURL e ≠ "" ∧ seedFastestURL e ∈ fieldsOf e := by
  have hd := validate_none_fallback h
  unfold seedFastestURL
  by_cases h1 : e.ClosestURL.utf8ByteSize ≠ 0
  · rw [if_pos h1]; exact ⟨utf8_ne_zero.mp h1, by simp [fieldsOf]⟩
  rw [if_neg h1]
  by_cases h2 : e.Universal.utf8ByteSize ≠ 0
  · rw [if_pos h2]; exact ⟨utf8_ne_zero.mp h2, by simp [fieldsOf]⟩
  rw [if_neg h2]
  by_cases h3 : e.Fallback.utf8ByteSize ≠ 0
  · rw [if_pos h3]; exact ⟨utf8_ne_zero.mp h3, by simp [fieldsOf]⟩
  exfalso
  rcases hd with hu | hf
  · exact hu (utf8_eq_zero.mp (not_not.mp h2))
  · exact hf (utf8_eq_zero.mp (not_not.mp h3))

/-- The minimum fold returns its accumulator or an element of the list. -/
theorem selectGo_mem (best : latencyResult) (l : List latencyResult) :
    selectGo best l = best ∨ selectGo best l ∈ l := by
  induction l generalizing best with
  | nil => exact Or.inl rfl
  | cons r rest ih =>
    simp only [selectGo]
    rcases ih (if r.Duration < best.Duration then r else best) with h | h
    · rw [h]
      by_cases hlt : r.Duration < best.Duration
      · rw [if_pos hlt]; exact Or.inr (List.mem_cons_self ..)
      · rw [if_neg hlt]; exact Or.inl rfl
    · exact Or.inr (List.mem_cons_of_mem _ h)

/-- The minimum fold's result is a lower bound of the accumulator and
of every element of the list. -/
theorem selectGo_le (best : latencyResult) (l : List latencyResult) :
    (selectGo best l).Duration ≤ best.Duration ∧
    ∀ r ∈ l, (selectGo best l).Duration ≤ r.Duration := by
  induction l generalizing best with
  | nil => exact ⟨Nat.le_refl _, by simp⟩
  | cons r rest ih =>
    simp only [selectGo]
    have h := ih (if r.Duration < best.Duration then r else best)
    have hacc : (if r.Duration < best.Duration then r else best).Duration ≤ best.Duration ∧
        (if r.Duration < best.Duration then r else best).Duration ≤ r.Duration := by
      by_cases hlt : r.Duration < best.Duration
      · rw [if_pos hlt]; omega
      · rw [if_neg hlt]; omega
    refine ⟨Nat.le_trans h.1 hacc.1, ?_⟩
    intro x hx
    rcases List.mem_cons.mp hx with rfl | hxt
    · exact Nat.le_trans h.1 hacc.2
    · exact h.2 x hxt

/-- If no element of the list beats the accumulator strictly, the
minimum fold keeps the accumulator. -/
theorem selectGo_stay (best : latencyResult) (l : List latencyResult)
    (h : ∀ r ∈ l, best.Duration ≤ r.Duration) : selectGo best l = best := by
  induction l with
  | nil => rfl
  | cons r rest ih =>
    simp only [selectGo]
    rw [if_neg (Nat.not_lt.mpr (h r (List.mem_cons_self ..)))]
    exact ih fun x hx => h x (List.mem_cons_of_mem _ hx)

/-- The minimum fold with strict comparison keeps the first element
that beats the accumulator and everything before it, provided nothing
after it is strictly smaller: ties are broken by arrival order. -/
theorem selectGo_first (l₁ : List latencyResult) (r : latencyResult)
    (l₂ : List latencyResult) :
    ∀ best, r.Duration < best.Duration → (∀ x ∈ l₁, r.Duration < x.Duration) →
    (∀ x ∈ l₂, r.Duration ≤ x.Duration) → selectGo best (l₁ ++ r :: l₂) = r := by
  induction l₁ with
  | nil =>
    intro best hb _ h2
    simp only [List.nil_append, selectGo, if_pos hb]
    exact selectGo_stay r l₂ h2
  | cons a t ih =>
    intro best hb h1 h2
    simp only [List.cons_append, selectGo]
    apply ih _ _ (fun x hx => h1 x (List.mem_cons_of_mem _ hx)) h2
    by_cases hlt : a.Duration < best.Duration
    · rw [if_pos hlt]; exact h1 a (List.mem_cons_self ..)
    · rw [if_neg hlt]; exact hb

/-- A result sent on the channel carries the URL of the probed
endpoint. -/
theorem headRequest_url {env : String → HTTPOutcome} {u : String} {r : latencyResult}
    (h : headRequest env u = some r) : r.URL = u := by
  unfold headRequest at h
  split at h
  · injection h with h; rw [← h]
  · split at h
    · exact Option.noConfusion h
    · injection h with h; rw [← h]
    · split at h
      · injection h with h; rw [← h]
      · injection h with h; rw [← h]

/-- Every recorded result of a probe round is a result for one of the
five candidate fields. -/
theorem roundResults_url {env : String → HTTPOutcome} {e : EndPoints} {r : latencyResult}
    (h : r ∈ roundResults env e) : r.URL ∈ candidates e := by
  unfold roundResults at h
  rcases List.mem_filterMap.mp h with ⟨u, hu, hr⟩
  rw [headRequest_url hr]
  exact hu

/-- Every candidate URL is a field of the set. -/
theorem candidates_subset {e : EndPoints} : ∀ u ∈ candidates e, u ∈ fieldsOf e := by
  intro u hu
  simp only [candidates, List.mem_cons, List.not_mem_nil, or_false] at hu
  rcases hu with rfl | rfl | rfl | rfl | rfl <;> simp [fieldsOf]

/-! Claim theorems. -/

/-- C1 (code bug): for a set whose only populated field is `Universal`
and whose `Fallback` is empty, `validate` succeeds — the single-field
count and the locally derived fallback equal `Universal` — yet the
caller-visible set after validation still has an EMPTY `Fallback`,
because `validate` has a value receiver and the assignment
`e.Fallback = e.Universal` mutates only the receiver copy.  The claim
(and the spec's Invariant 3) says the fallback is auto-set and
non-empty after validation; the code loses the assignment. -/
theorem claim_C1_bug :
    countPopulated (fieldsOf exUniversalOnly) = .ok 1 ∧
    derivedFallback exUniversalOnly 1 = exUniversalOnly.Universal ∧
    validateCaller exUniversalOnly = .ok exUniversalOnly ∧
    exUniversalOnly.Fallback = "" ∧
    exUniversalOnly.Universal ≠ "" := by decide

/-- C2 (amended): the candidate list of a probe round is exactly the
Universal, USEast, USWest, Europe and AsiaPacific fields — Fallback
and ClosestURL are never probed — and for any order in which the
recorded results arrive on the channel, the selected winner is a
recorded result with the minimum duration; ties are broken by the
ARRIVAL order on the channel (the first minimal result wins), which is
an arbitrary permutation of the candidate order, not the fixed
iteration order of the candidate list. -/
theorem claim_C2_amended (env : String → HTTPOutcome) (e : EndPoints)
    (arrivals : List latencyResult) (hperm : arrivals.Perm (roundResults env e)) :
    candidates e = [e.Universal, e.USEast, e.USWest, e.Europe, e.AsiaPacific] ∧
    (∀ x, roundResults env { e with Fallback := x } = roundResults env e) ∧
    (∀ x, roundResults env { e with ClosestURL := x } = roundResults env e) ∧
    ((selectFastest arrivals).URL ≠ "" → selectFastest arrivals ∈ roundResults env e) ∧
    (∀ r ∈ roundResults env e, (selectFastest arrivals).Duration ≤ r.Duration) ∧
    (∀ l₁ r l₂, arrivals = l₁ ++ r :: l₂ → r.Duration < timeHour →
      (∀ x ∈ l₁, r.Duration < x.Duration) → (∀ x ∈ l₂, r.Duration ≤ x.Duration) →
      selectFastest arrivals = r) := by
  refine ⟨rfl, fun _ => rfl, fun _ => rfl, ?_, ?_, ?_⟩
  · intro hne
    rcases selectGo_mem ⟨"", timeHour⟩ arrivals with h | h
    · exfalso; apply hne; unfold selectFastest; rw [h]
    · exact hperm.mem_iff.mp h
  · intro r hr
    exact (selectGo_le ⟨"", timeHour⟩ arrivals).2 r (hperm.mem_iff.mpr hr)
  · intro l₁ r l₂ heq hlt h1 h2
    unfold selectFastest
    rw [heq]
    exact selectGo_first l₁ r l₂ ⟨"", timeHour⟩ hlt h1 h2

/-- C2 witness: a concrete round in which the amended theorem's
minimality conclusion is evaluated. -/
theorem claim_C2_amended_witness :
    arrTie.Perm (roundResults envTie eTie) ∧
    ∀ r ∈ roundResults envTie eTie, (selectFastest arrTie).Duration ≤ r.Duration :=
  ⟨by decide, (claim_C2_amended envTie eTie arrTie (by decide)).2.2.2.2.1⟩

/-- C2 counterexample to the claim as stated: Universal (`http://u`)
and USEast (`http://e`) both answer in 5ns; when the USEast result
arrives on the channel first, the stored winner is `http://e`, while
breaking the tie by the fixed iteration order of the candidate list
(Universal first) would select `http://u`. -/
theorem claim_C2_counterexample :
    arrTie.Perm (roundResults envTie eTie) ∧
    updateFastest arrTie "" = "http://e" ∧
    selectFastest (roundResults envTie eTie) = ⟨"http://u", 5⟩ ∧
    ("http://e" : String) ≠ "http://u" := by decide

/-- C3: if no recorded result of a round has a duration strictly below
the sentinel `time.Hour`, the fold's winner keeps its empty-URL initial
value and `fastestURL` is left unchanged, so the getter still returns
the previously-held value and never turns a non-empty value into the
empty string. -/
theorem claim_C3 (env : String → HTTPOutcome) (e : EndPoints) (old : String)
    (arrivals : List latencyResult) (hperm : arrivals.Perm (roundResults env e))
    (hfail : ∀ r ∈ roundResults env e, ¬ r.Duration < timeHour) :
    updateFastest arrivals old = old ∧ (old ≠ "" → updateFastest arrivals old ≠ "") := by
  have hstay : selectGo ⟨"", timeHour⟩ arrivals = ⟨"", timeHour⟩ :=
    selectGo_stay _ _ fun r hr => Nat.not_lt.mp (hfail r (hperm.mem_iff.mp hr))
  have hupd : updateFastest arrivals old = old := by
    unfold updateFastest selectFastest
    rw [hstay]
    exact if_pos rfl
  exact ⟨hupd, fun hold => by rw [hupd]; exact hold⟩

/-- C3 witness: a round in which every candidate errors. -/
theorem claim_C3_witness :
    (∀ r ∈ roundResults envFail eTie, ¬ r.Duration < timeHour) ∧
    updateFastest (roundResults envFail eTie) "http://prev" = "http://prev" :=
  ⟨by decide, (claim_C3 envFail eTie "http://prev" _ (List.Perm.refl _) (by decide)).1⟩

/-- C4: for every EndPoints value that passes validation, the seed of
`fastestURL` computed during construction — before any probe result —
is a non-empty string drawn from the fields of the set, and it stays
non-empty and drawn from the set after the synchronous probe round
that construction runs, whatever the probe outcomes and channel
arrival order. -/
theorem claim_C4 (e : EndPoints) (hval : validate e = none) :
    seedFastestURL e ≠ "" ∧ seedFastestURL e ∈ fieldsOf e ∧
    ∀ (env : String → HTTPOutcome) (arrivals : List latencyResult),
      arrivals.Perm (roundResults env e) →
      fastestURLAfterNew e arrivals ≠ "" ∧ fastestURLAfterNew e arrivals ∈ fieldsOf e := by
  obtain ⟨hne, hmem⟩ := seed_ok hval
  refine ⟨hne, hmem, ?_⟩
  intro env arrivals hperm
  unfold fastestURLAfterNew updateFastest
  by_cases hz : (selectFastest arrivals).URL.utf8ByteSize = 0
  · rw [if_pos hz]; exact ⟨hne, hmem⟩
  · rw [if_neg hz]
    have hu : (selectFastest arrivals).URL ≠ "" := utf8_ne_zero.mp hz
    have hwin : selectFastest arrivals ∈ roundResults env e := by
      rcases selectGo_mem ⟨"", timeHour⟩ arrivals with h | h
      · exfalso; apply hu; unfold selectFastest; rw [h]
      · exact hperm.mem_iff.mp h
    exact ⟨hu, candidates_subset _ (roundResults_url hwin)⟩

/-- C4 witness: a concrete validated set. -/
theorem claim_C4_witness :
    validate eTie = none ∧ seedFastestURL eTie ≠ "" ∧ seedFastestURL eTie ∈ fieldsOf eTie :=
  ⟨by decide, (claim_C4 eTie (by decide)).1, (claim_C4 eTie (by decide)).2.1⟩

/-- C5 (amended): for a single probe of a non-empty endpoint, a
request-construction failure records no result; a network error
records the sentinel; and a response is recorded with the measured
elapsed time only when the status is EXACTLY 200 (`http.StatusOK`) —
any other status, including other 2xx statuses, records the
sentinel. -/
theorem claim_C5_amended (env : String → HTTPOutcome) (endpoint : String)
    (h : endpoint ≠ "") :
    (env endpoint = .buildFail → headRequest env endpoint = none) ∧
    (env endpoint = .netError → headRequest env endpoint = some ⟨endpoint, timeHour⟩) ∧
    (∀ status elapsed, env endpoint = .response status elapsed →
      headRequest env endpoint =
        some ⟨endpoint, if status = 200 then elapsed else timeHour⟩) := by
  have hz : ¬ endpoint.utf8ByteSize = 0 := fun hc => h (utf8_eq_zero.mp hc)
  refine ⟨?_, ?_, ?_⟩ <;> unfold headRequest
  · intro he; rw [if_neg hz, he]
  · intro he; rw [if_neg hz, he]
  · intro status elapsed he
    rw [if_neg hz, he]
    by_cases hs : status = 200
    · simp [hs]
    · simp [hs]

/-- C5 witness: a 200 response is recorded with its measured elapsed
time. -/
theorem claim_C5_witness :
    ("http://a" : String) ≠ "" ∧
    headRequest (fun _ => .response 200 7) "http://a" = some ⟨"http://a", 7⟩ := by
  refine ⟨by decide, ?_⟩
  have h := (claim_C5_amended (fun _ => .response 200 7) "http://a" (by decide)).2.2 200 7 rfl
  simpa using h

/-- C5 counterexample to the claim as stated: a 204 response — inside
the 2xx range — is recorded with the sentinel duration, not with the
measured elapsed time of 5ns. -/
theorem claim_C5_counterexample :
    headRequest (fun _ => .response 204 5) "http://a" = some ⟨"http://a", timeHour⟩ ∧
    200 ≤ 204 ∧ 204 < 300 ∧ (5 : Nat) ≠ timeHour := by decide

/-- C6 (code bug): the exact region string `ap-southeast-1` matches NO
case of the region switch, because the source literal is
`"  ap-southeast-1"` with two leading spaces (`router.go` line 82);
lower-casing the environment value can never produce leading spaces.
With AsiaPacific populated, the override leaves `ClosestURL` empty and
the router URL falls through to the fallback, while the claim (and the
spec's region table) says it seeds the AsiaPacific URL. -/
theorem claim_C6_bug :
    NewEnvironmentRouter "ap-southeast-1" eAsia =
      .ok { AWSRegion := "ap-southeast-1", endpoints := eAsia } ∧
    (regionOverride "ap-southeast-1" eAsia).ClosestURL = "" ∧
    (regionOverride "  ap-southeast-1" eAsia).ClosestURL = "https://apac.foobar.com" ∧
    eAsia.AsiaPacific = "https://apac.foobar.com" ∧
    GetRouterURL { AWSRegion := "ap-southeast-1", endpoints := eAsia } =
      "https://fallback.foobar.com" ∧
    ("https://fallback.foobar.com" : String) ≠ eAsia.AsiaPacific := by decide

/-- C7 (code bug): a first stop call buffers the signal; the ticker
goroutine then receives it and CLOSES the `stopTicker` channel; a
second stop call now hits a send on a closed channel inside `select`,
which is a runtime panic in Go (modelled as `none`) — so calling stop
twice is NOT harmless in every interleaving, contrary to the claim
and the spec's idempotence requirement.  (A second stop BEFORE the
goroutine consumes the first is harmless: the buffer is full and the
default branch is taken.) -/
theorem claim_C7_bug :
    StopPingingEndpoints ChanState.empty = some ChanState.full ∧
    StopPingingEndpoints ChanState.full = some ChanState.full ∧
    tickerLoopReceiveStop ChanState.full = ChanState.closed ∧
    StopPingingEndpoints ChanState.closed = none := by decide

/-- C8: with the lower-cased region equal to `us-east-1` or
`us-east-2` and a populated USEast field, a validated set is seeded
with `ClosestURL = USEast`, and the router URL equals the USEast URL,
regardless of which other fields are populated. -/
theorem claim_C8 (awsRegionEnv : String) (e : EndPoints) (hval : validate e = none)
    (hreg : goToLower awsRegionEnv = "us-east-1" ∨ goToLower awsRegionEnv = "us-east-2")
    (hus : e.USEast ≠ "") :
    NewEnvironmentRouter awsRegionEnv e =
      .ok { AWSRegion := goToLower awsRegionEnv,
            endpoints := { e with ClosestURL := e.USEast } } ∧
    GetRouterURL { AWSRegion := goToLower awsRegionEnv,
                   endpoints := { e with ClosestURL := e.USEast } } = e.USEast := by
  constructor
  · simp only [NewEnvironmentRouter, hval]
    rcases hreg with h | h <;> rw [h]
    · rw [if_pos (show 0 < ("us-east-1" : String).utf8ByteSize by decide)]
      unfold regionOverride
      rw [if_pos (Or.inl rfl)]
    · rw [if_pos (show 0 < ("us-east-2" : String).utf8ByteSize by decide)]
      unfold regionOverride
      rw [if_pos (Or.inr rfl)]
  · have h0 : e.USEast.utf8ByteSize ≠ 0 := utf8_ne_zero.mpr hus
    show (if e.USEast.utf8ByteSize ≠ 0 then e.USEast
      else if e.Universal.utf8ByteSize ≠ 0 then e.Universal
      else if e.Fallback.utf8ByteSize ≠ 0 then e.Fallback else "") = e.USEast
    rw [if_pos h0]

/-- C8 witness: region `US-EAST-1` (upper-cased in the environment)
with a concrete set. -/
theorem claim_C8_witness :
    validate eUS = none ∧
    GetRouterURL { AWSRegion := goToLower "US-EAST-1",
                   endpoints := { eUS with ClosestURL := eUS.USEast } } = eUS.USEast :=
  ⟨by decide, (claim_C8 "US-EAST-1" eUS (by decide) (Or.inl (by decide)) (by decide)).2⟩

/-- C9 (amended): a populated field whose scheme is empty always makes
`validate` fail — with the missing-protocol error, or with the
malformed-URL error when an earlier-iterated populated field fails to
parse; and a set with zero populated fields makes `validate` fail with
the at-least-one error.  The disjunctive first conclusion is the same
whichever `url.Parse` error path (modelled or not) an individual field
takes, so it is faithful to the program even though the embedded
parser only models the scheme stage of `url.Parse`. -/
theorem claim_C9_amended (e : EndPoints) :
    ((∃ v ∈ fieldsOf e, 1 < v.utf8ByteSize ∧ getScheme v = some "") →
      validate e = some ValidateError.missingProtocol ∨
      validate e = some ValidateError.malformedURL) ∧
    ((∀ v ∈ fieldsOf e, ¬ 1 < v.utf8ByteSize) → validate e = some .atLeastOne) := by
  constructor
  · intro hex
    rcases countPopulated_schemeless _ hex with h | h
    · left
      unfold validate
      rw [h]
    · right
      unfold validate
      rw [h]
  · intro hsmall
    unfold validate
    rw [countPopulated_allSmall _ fun v hv => Nat.not_lt.mp (hsmall v hv)]
    rfl

/-- C9 witness: a schemeless Universal next to a well-formed Fallback
fails (concretely with missing-protocol); the all-empty set yields
at-least-one. -/
theorem claim_C9_witness :
    validate eSchemeless = some ValidateError.missingProtocol ∧
    (validate eSchemeless = some ValidateError.missingProtocol ∨
      validate eSchemeless = some ValidateError.malformedURL) ∧
    validate {} = some .atLeastOne :=
  ⟨by decide, (claim_C9_amended eSchemeless).1 (by decide),
   (claim_C9_amended {}).2 (by decide)⟩

/-- C9 counterexample to the claim as stated: `eNine` contains a
populated field (`Europe = "eu.foobar.com"`) that parses with an empty
scheme, yet `validate` fails with the malformed-URL error — not the
missing-protocol error — because the earlier-iterated AsiaPacific
field (`"://a"`) fails to parse first. -/
theorem claim_C9_counterexample :
    ("eu.foobar.com" ∈ fieldsOf eNine ∧ 1 < ("eu.foobar.com" : String).utf8ByteSize ∧
      getScheme "eu.foobar.com" = some "") ∧
    validate eNine = some .malformedURL ∧
    ValidateError.malformedURL ≠ ValidateError.missingProtocol := by decide

/-- C10: the validation loop treats a field of byte length exactly 1
as if it were empty — it is neither parsed nor counted — so a set all
of whose fields have byte length at most 1 fails with the
at-least-one error (not a parse error), and adding a one-character
scheme-less value to an otherwise valid set leaves validation
succeeding, unchecked. -/
theorem claim_C10 :
    (∀ (v : String) (l : List String), v.utf8ByteSize = 1 →
      countPopulated (v :: l) = countPopulated l) ∧
    (∀ e : EndPoints, (∀ v ∈ fieldsOf e, v.utf8ByteSize ≤ 1) →
      validate e = some .atLeastOne) ∧
    (∀ (e : EndPoints) (v : String), v.utf8ByteSize = 1 → e.USEast = "" →
      validate e = none → validate { e with USEast := v } = none) := by
  refine ⟨?_, ?_, ?_⟩
  · intro v l hv
    exact countPopulated_skip (Nat.le_of_eq hv) l
  · intro e hsmall
    unfold validate
    rw [countPopulated_allSmall _ hsmall]
    rfl
  · intro e v hv hUS hval
    have hcount : countPopulated (fieldsOf { e with USEast := v }) =
        countPopulated (fieldsOf e) := by
      have h2 := countPopulated_congr v "" (Nat.le_of_eq hv) (by decide)
        [e.AsiaPacific, e.Europe, e.Universal] [e.USWest, e.Fallback, e.ClosestURL]
      simpa [fieldsOf, hUS] using h2
    unfold validate at hval ⊢
    rw [hcount]
    exact hval

/-- C10 witness: the one-character value `x` is skipped — `eAsia` with
`USEast = "x"` still validates, and a set whose only non-empty field
is `"x"` fails with at-least-one. -/
theorem claim_C10_witness :
    ("x" : String).utf8ByteSize = 1 ∧ eAsia.USEast = "" ∧ validate eAsia = none ∧
    validate { eAsia with USEast := "x" } = none ∧
    validate { USEast := "x" } = some .atLeastOne :=
  ⟨by decide, by decide, by decide,
   claim_C10.2.2 eAsia "x" (by decide) (by decide) (by decide),
   claim_C10.2.1 { USEast := "x" } (by decide)⟩

end ApiRouter
